import Mathlib

/-!
# go-fyaml C glue layer (`callback.c`, `callback.h`)

A shallow embedding of the seven functions of `callback.c` and the properties
of their forwarding behaviour.

Conventions of the embedding

* Opaque handles (`struct fy_parser *`, `struct fy_event *` received by the
  callback, `struct fy_path *`, `void *userdata`, `struct fy_emitter *`) are
  addresses: natural numbers, `0` being `NULL`.
* Pointers to constant data (`const char *`, `const struct fy_version *`,
  `const struct fy_tag * const *`) are represented by what they point to,
  `none` being `NULL`.
* `int` and `enum` arguments that travel through the variadic call are
  integers; `size_t` is a natural number.  The functions of `callback.c` do no
  arithmetic on them, so no wrap-around is modelled.
* The two external functions, `FY_ProcessEvent` and `fy_emit_event_create`,
  are not defined in this repository.  They are parameters of the embedding:
  arbitrary state-passing functions over a world `W`.
-/

namespace GoFyaml

/-! ## Data passed across the C boundary -/

/-- An opaque handle: an address, `0` is `NULL`. -/
abbrev Ptr := Nat

/-- A sequence of bytes. -/
abbrev Bytes := List Nat

/-- A `const char *`: `none` is `NULL`, otherwise the bytes it points to. -/
abbrev CString := Option Bytes

/-- A `const struct fy_version *`: `none` is `NULL`, otherwise (major, minor). -/
abbrev VersionPtr := Option (Nat × Nat)

/-- A `const struct fy_tag * const *`: `none` is `NULL`, otherwise the
(handle, prefix) pairs of the array it points to. -/
abbrev TagsPtr := Option (List (Bytes × Bytes))

/-- Modelled from the spec: the declaration of `enum fy_event_type` is in the
header of the wrapped library, which is not part of this repository.  The
kinds are the ten variants of the spec's Event data model; `FYET_DOCUMENT_START`,
`FYET_DOCUMENT_END`, `FYET_SCALAR` and `FYET_ALIAS` are named in `callback.c`. -/
inductive fy_event_type
  | FYET_STREAM_START
  | FYET_STREAM_END
  | FYET_DOCUMENT_START
  | FYET_DOCUMENT_END
  | FYET_MAPPING_START
  | FYET_MAPPING_END
  | FYET_SEQUENCE_START
  | FYET_SEQUENCE_END
  | FYET_SCALAR
  | FYET_ALIAS
  deriving DecidableEq

open fy_event_type

/-- One argument in the variadic part of a call of `fy_emit_event_create`,
tagged with its C type after default argument promotion. -/
inductive VArg
  | int (v : Int)
  | size (n : Nat)
  | str (p : CString)
  | version (p : VersionPtr)
  | tags (p : TagsPtr)
  deriving DecidableEq

/-- The external handler `FY_ProcessEvent` (declared `extern` in `callback.c`,
lines 4-5): it receives the four arguments, may change the world, and returns
an `enum fy_composer_return` as an integer. -/
abbrev Handler (W : Type) := Ptr → Ptr → Ptr → Ptr → W → Int × W

/-- The external library function `fy_emit_event_create(emit, type, ...)`:
it receives the emitter, the event kind and the variadic arguments, may change
the world, and returns an event pointer (`none` is `NULL`). -/
abbrev Creator (W E : Type) := Ptr → fy_event_type → List VArg → W → Option E × W

/-! ## The functions of `callback.c` -/

/-- Function `compose_process_event`, `callback.c` lines 7-11: the trampoline.
It calls the external handler with its own four arguments and returns what the
handler returns. -/
def compose_process_event {W : Type} (FY_ProcessEvent : Handler W)
    (fyp fye path userdata : Ptr) : W → Int × W :=
  FY_ProcessEvent fyp fye path userdata

/-- Function `fy_emit_event_create_simple`, `callback.c` lines 13-17: the
library call with the given kind and an empty variadic part. -/
def fy_emit_event_create_simple {W E : Type} (fy_emit_event_create : Creator W E)
    (emit : Ptr) (type : fy_event_type) : W → Option E × W :=
  fy_emit_event_create emit type []

/-- Function `fy_emit_event_create_document_start`, `callback.c` lines 19-23. -/
def fy_emit_event_create_document_start {W E : Type} (fy_emit_event_create : Creator W E)
    (emit : Ptr) (implicit : Int) (vers : VersionPtr) (tags : TagsPtr) :
    W → Option E × W :=
  fy_emit_event_create emit FYET_DOCUMENT_START
    [VArg.int implicit, VArg.version vers, VArg.tags tags]

/-- Function `fy_emit_event_create_document_end`, `callback.c` lines 25-29. -/
def fy_emit_event_create_document_end {W E : Type} (fy_emit_event_create : Creator W E)
    (emit : Ptr) (implicit : Int) : W → Option E × W :=
  fy_emit_event_create emit FYET_DOCUMENT_END [VArg.int implicit]

/-- Function `fy_emit_event_create_collection_start`, `callback.c` lines 31-35:
the kind is the one given by the caller. -/
def fy_emit_event_create_collection_start {W E : Type} (fy_emit_event_create : Creator W E)
    (emit : Ptr) (type : fy_event_type) (ns : Int) (anchor tag : CString) :
    W → Option E × W :=
  fy_emit_event_create emit type [VArg.int ns, VArg.str anchor, VArg.str tag]

/-- Function `fy_emit_event_create_scalar`, `callback.c` lines 37-41. -/
def fy_emit_event_create_scalar {W E : Type} (fy_emit_event_create : Creator W E)
    (emit : Ptr) (ss : Int) (value : CString) (size : Nat) (anchor tag : CString) :
    W → Option E × W :=
  fy_emit_event_create emit FYET_SCALAR
    [VArg.int ss, VArg.str value, VArg.size size, VArg.str anchor, VArg.str tag]

/-- Function `fy_emit_event_create_alias`, `callback.c` lines 43-47. -/
def fy_emit_event_create_alias {W E : Type} (fy_emit_event_create : Creator W E)
    (emit : Ptr) (value : CString) : W → Option E × W :=
  fy_emit_event_create emit FYET_ALIAS [VArg.str value]

/-! ## Observing the calls made to the external functions

The external functions are parameters, so a property of the form "the call
that reaches the handler is this one" is stated with an observer: a handler (or
library function) that behaves like a given one and, in addition, appends the
arguments it receives to a log kept beside the world. -/

/-- The four arguments of one invocation of the parser callback. -/
structure Invocation where
  fyp : Ptr
  fye : Ptr
  path : Ptr
  userdata : Ptr
  deriving DecidableEq

/-- The handler `FY_ProcessEvent` seen from the outside: it does what
`FY_ProcessEvent` does and logs the arguments it was called with. -/
def observedHandler {W : Type} (FY_ProcessEvent : Handler W) :
    Handler (W × List Invocation) :=
  fun fyp fye path userdata s =>
    let r := FY_ProcessEvent fyp fye path userdata s.1
    (r.1, (r.2, s.2 ++ [⟨fyp, fye, path, userdata⟩]))

/-- The parser side of the callback protocol: it invokes the callback once per
element of the list, in list order, each invocation starting in the world the
previous one left, and collects the return codes. -/
def invokeAll {W : Type} (callback : Handler W) : List Invocation → W → List Int × W
  | [], w => ([], w)
  | i :: rest, w =>
      let r := callback i.fyp i.fye i.path i.userdata w
      let rs := invokeAll callback rest r.2
      (r.1 :: rs.1, rs.2)

/-- One call of `fy_emit_event_create`: emitter, event kind, variadic part. -/
structure CreateCall where
  emit : Ptr
  type : fy_event_type
  args : List VArg
  deriving DecidableEq

/-- The library function `fy_emit_event_create` seen from the outside: it does
what the given function does and logs the call. -/
def observedCreate {W E : Type} (fy_emit_event_create : Creator W E) :
    Creator (W × List CreateCall) E :=
  fun emit type args s =>
    let r := fy_emit_event_create emit type args s.1
    (r.1, (r.2, s.2 ++ [⟨emit, type, args⟩]))

/-! ## What the library reads from the variadic part -/

/-- The C type of a variadic argument. -/
inductive ArgSort
  | int
  | size
  | str
  | version
  | tags
  deriving DecidableEq

/-- The C type of a given variadic argument. -/
def VArg.sort : VArg → ArgSort
  | .int _ => .int
  | .size _ => .size
  | .str _ => .str
  | .version _ => .version
  | .tags _ => .tags

/-- Modelled from the spec: the body of `fy_emit_event_create` is in the
wrapped library, which is not part of this repository.  This is the list of
payload arguments it reads for each kind, taken from the fields of the spec's
Event data model: none for STREAM_START, STREAM_END, MAPPING_END and
SEQUENCE_END; (implicit, version, tags) for DOCUMENT_START; (implicit) for
DOCUMENT_END; (style, anchor, tag) for MAPPING_START and SEQUENCE_START;
(style, value, anchor, tag) for SCALAR, the value being a byte sequence, passed
in C as pointer and size; (target anchor) for ALIAS.  For DOCUMENT_START,
DOCUMENT_END, SCALAR and ALIAS it is also the list that the dedicated helper
of `callback.c` passes. -/
def payloadSignature : fy_event_type → List ArgSort
  | FYET_STREAM_START => []
  | FYET_STREAM_END => []
  | FYET_DOCUMENT_START => [.int, .version, .tags]
  | FYET_DOCUMENT_END => [.int]
  | FYET_MAPPING_START => [.int, .str, .str]
  | FYET_MAPPING_END => []
  | FYET_SEQUENCE_START => [.int, .str, .str]
  | FYET_SEQUENCE_END => []
  | FYET_SCALAR => [.int, .str, .size, .str, .str]
  | FYET_ALIAS => [.str]

/-- Modelled from the spec: the number of payload arguments the library call
reads for a kind (see `payloadSignature`). -/
def payloadArity (type : fy_event_type) : Nat :=
  (payloadSignature type).length

/-- The call supplies as many payload arguments as the library reads for its kind. -/
def CreateCall.countMatches (call : CreateCall) : Bool :=
  decide (call.args.length = payloadArity call.type)

/-- The call supplies payload arguments of the C types, in the order, that the
library reads for its kind. -/
def CreateCall.signatureMatches (call : CreateCall) : Bool :=
  decide (call.args.map VArg.sort = payloadSignature call.type)

/-! ## The event model, the node model and the composer of the specification

The round-trip property of the specification speaks of the event model, the
node tree, `compose` and the events produced when a tree is emitted.  None of
these is code of `callback.c`; they are modelled here from the words of the
specification.  The events of a tree are built with the helpers of
`callback.c` defined above. -/

/-- Modelled from the spec: scalar styles of the Event data model, section 3,
`PLAIN|SINGLE_QUOTED|DOUBLE_QUOTED|LITERAL|FOLDED`.  The C enumeration is in
the library header. -/
inductive ScalarStyle
  | PLAIN
  | SINGLE_QUOTED
  | DOUBLE_QUOTED
  | LITERAL
  | FOLDED
  deriving DecidableEq

/-- Modelled from the spec: collection styles of the Event data model,
section 3, `BLOCK|FLOW`.  The C enumeration is in the library header. -/
inductive CollectionStyle
  | BLOCK
  | FLOW
  deriving DecidableEq

/-- Modelled from the spec: the Event tagged variant of section 3.  The
structure behind `struct fy_event *` is in the library header. -/
inductive Event
  | STREAM_START
  | STREAM_END
  | DOCUMENT_START (implicit : Bool) (version : Option (Nat × Nat))
      (tags : Option (List (Bytes × Bytes)))
  | DOCUMENT_END (implicit : Bool)
  | MAPPING_START (style : CollectionStyle) (anchor tag : Option Bytes)
  | MAPPING_END
  | SEQUENCE_START (style : CollectionStyle) (anchor tag : Option Bytes)
  | SEQUENCE_END
  | SCALAR (style : ScalarStyle) (value : Bytes) (anchor tag : Option Bytes)
  | ALIAS (target_anchor : Bytes)
  deriving DecidableEq

/-- Modelled from the spec: the Node variant of section 3, a scalar with value
and tag, a mapping with an ordered sequence of (key, value) pairs and a tag, a
sequence with an ordered sequence of nodes and a tag, an alias with its
resolved target.  No node tree is defined in `callback.c`. -/
inductive Node
  | Scalar (value : Bytes) (tag : Option Bytes)
  | Mapping (pairs : List (Node × Node)) (tag : Option Bytes)
  | Sequence (items : List Node) (tag : Option Bytes)
  | Alias (target : Node)

/-- Modelled from the spec: the kinds of ParseError of section 4.2 (positions
are left out, events carry none). -/
inductive ParseError
  | UndefinedAlias (anchor : Bytes)
  | UnexpectedToken
  | DuplicateAnchor
  | MappingKeyNotScalarOrFlow
  deriving DecidableEq

/-- Modelled from the spec: the scalar style an integer argument stands for,
numbered from 0 in the order in which section 3 lists the styles; the values of
the C enumeration are in the library header.  Any other integer is no style. -/
def ScalarStyle.ofInt (v : Int) : Option ScalarStyle :=
  if v = 0 then some .PLAIN
  else if v = 1 then some .SINGLE_QUOTED
  else if v = 2 then some .DOUBLE_QUOTED
  else if v = 3 then some .LITERAL
  else if v = 4 then some .FOLDED
  else none

/-- Modelled from the spec: the collection style an integer argument stands
for, numbered from 0 in the order in which section 3 lists the styles; the
values of the C enumeration are in the library header. -/
def CollectionStyle.ofInt (v : Int) : Option CollectionStyle :=
  if v = 0 then some .BLOCK
  else if v = 1 then some .FLOW
  else none

/-- Modelled from the spec: the event that the library builds from a kind and
a variadic part, the body of `fy_emit_event_create` being in the wrapped
library.  Each kind reads the payload of `payloadSignature` and fills the
fields of the Event variant of section 3 with it, with no default: an `int`
flag is true when it is not 0, a null anchor, tag, version or tag list is an
absent field, the scalar value is the first `size` bytes behind the pointer.
A variadic part of another shape, a style that is no style, a null value or
target, or a size beyond the buffer yields no event (`NULL`). -/
def decodeEvent : fy_event_type → List VArg → Option Event
  | FYET_STREAM_START, [] => some .STREAM_START
  | FYET_STREAM_END, [] => some .STREAM_END
  | FYET_DOCUMENT_START, [.int i, .version v, .tags t] =>
      some (.DOCUMENT_START (decide (i ≠ 0)) v t)
  | FYET_DOCUMENT_END, [.int i] => some (.DOCUMENT_END (decide (i ≠ 0)))
  | FYET_MAPPING_START, [.int s, .str a, .str t] =>
      (CollectionStyle.ofInt s).map fun st => .MAPPING_START st a t
  | FYET_MAPPING_END, [] => some .MAPPING_END
  | FYET_SEQUENCE_START, [.int s, .str a, .str t] =>
      (CollectionStyle.ofInt s).map fun st => .SEQUENCE_START st a t
  | FYET_SEQUENCE_END, [] => some .SEQUENCE_END
  | FYET_SCALAR, [.int s, .str (some buf), .size n, .str a, .str t] =>
      if n ≤ buf.length then
        (ScalarStyle.ofInt s).map fun st => .SCALAR st (buf.take n) a t
      else none
  | FYET_ALIAS, [.str (some target)] => some (.ALIAS target)
  | _, _ => none

/-- Modelled from the spec: a library function `fy_emit_event_create` that
builds the events of section 3 (see `decodeEvent`) and leaves the world as it
is. -/
def referenceCreate {W : Type} : Creator W Event :=
  fun _ type args w => (decodeEvent type args, w)

/-- Modelled from the spec: the kind of an event of the Event data model,
section 3. -/
def Event.kind : Event → fy_event_type
  | .STREAM_START => FYET_STREAM_START
  | .STREAM_END => FYET_STREAM_END
  | .DOCUMENT_START _ _ _ => FYET_DOCUMENT_START
  | .DOCUMENT_END _ => FYET_DOCUMENT_END
  | .MAPPING_START _ _ _ => FYET_MAPPING_START
  | .MAPPING_END => FYET_MAPPING_END
  | .SEQUENCE_START _ _ _ => FYET_SEQUENCE_START
  | .SEQUENCE_END => FYET_SEQUENCE_END
  | .SCALAR _ _ _ _ => FYET_SCALAR
  | .ALIAS _ => FYET_ALIAS

/-- Sequencing of two steps that may yield `NULL`: the second step runs in the
world the first one left; after a `NULL` nothing more is run. -/
def andThen {W α β : Type} (m : W → Option α × W) (f : α → W → Option β × W) :
    W → Option β × W :=
  fun w =>
    match m w with
    | (some a, w1) => f a w1
    | (none, w1) => (none, w1)

/-- The choices the specification leaves to whoever emits a tree: the two
`implicit` flags of the document, the style of each scalar, the style of the
collections. -/
structure EmitChoice where
  implicitStart : Int
  implicitEnd : Int
  scalarStyle : Bytes → Int
  collectionStyle : Int

mutual
/-- Modelled from the spec: the events produced when a node is emitted, in the
protocol order of section 4.5 (collection START and END balanced), each event
built with a helper of `callback.c`: a scalar is one `fy_emit_event_create_scalar`
with the value passed as pointer and length; a mapping is a
`fy_emit_event_create_collection_start` of kind MAPPING_START, the events of
each key and value in order, and a `fy_emit_event_create_simple` of kind
MAPPING_END; a sequence likewise.  Nodes carry no anchor, so every anchor is
null, and an alias node, whose ALIAS event would need the name of an anchor,
produces nothing. -/
def emitNode {W E : Type} (create : Creator W E) (emit : Ptr) (c : EmitChoice) :
    Node → W → Option (List E) × W
  | .Scalar value tag =>
      andThen (fy_emit_event_create_scalar create emit (c.scalarStyle value)
                (some value) value.length none tag)
        fun e w => (some [e], w)
  | .Mapping pairs tag =>
      andThen (fy_emit_event_create_collection_start create emit FYET_MAPPING_START
                c.collectionStyle none tag) fun e0 =>
      andThen (emitPairs create emit c pairs) fun es =>
      andThen (fy_emit_event_create_simple create emit FYET_MAPPING_END) fun e1 w =>
        (some (e0 :: es ++ [e1]), w)
  | .Sequence items tag =>
      andThen (fy_emit_event_create_collection_start create emit FYET_SEQUENCE_START
                c.collectionStyle none tag) fun e0 =>
      andThen (emitItems create emit c items) fun es =>
      andThen (fy_emit_event_create_simple create emit FYET_SEQUENCE_END) fun e1 w =>
        (some (e0 :: es ++ [e1]), w)
  | .Alias _ => fun w => (none, w)
/-- Modelled from the spec: the events of the items of a sequence, in order. -/
def emitItems {W E : Type} (create : Creator W E) (emit : Ptr) (c : EmitChoice) :
    List Node → W → Option (List E) × W
  | [] => fun w => (some [], w)
  | x :: xs =>
      andThen (emitNode create emit c x) fun es =>
      andThen (emitItems create emit c xs) fun rest w => (some (es ++ rest), w)
/-- Modelled from the spec: the events of the pairs of a mapping, in order,
each key before its value. -/
def emitPairs {W E : Type} (create : Creator W E) (emit : Ptr) (c : EmitChoice) :
    List (Node × Node) → W → Option (List E) × W
  | [] => fun w => (some [], w)
  | (k, v) :: ps =>
      andThen (emitNode create emit c k) fun ks =>
      andThen (emitNode create emit c v) fun vs =>
      andThen (emitPairs create emit c ps) fun rest w => (some (ks ++ vs ++ rest), w)
end

/-- Modelled from the spec: the events produced when a tree is emitted as one
document, in the protocol order of section 4.5: STREAM_START once first, then
DOCUMENT_START, the events of the tree, DOCUMENT_END, and STREAM_END once
last.  The document carries no version and no tag list. -/
def emitDocument {W E : Type} (create : Creator W E) (emit : Ptr) (c : EmitChoice)
    (n : Node) : W → Option (List E) × W :=
  andThen (fy_emit_event_create_simple create emit FYET_STREAM_START) fun e0 =>
  andThen (fy_emit_event_create_document_start create emit c.implicitStart none none)
    fun e1 =>
  andThen (emitNode create emit c n) fun es =>
  andThen (fy_emit_event_create_document_end create emit c.implicitEnd) fun e2 =>
  andThen (fy_emit_event_create_simple create emit FYET_STREAM_END) fun e3 w =>
    (some (e0 :: e1 :: es ++ [e2, e3]), w)

/-- Modelled from the spec: a partially built container on the explicit stack
of the composer, section 4.4.  A mapping remembers the pairs built so far and
the key that still waits for its value; both remember the anchor and tag of
their START event. -/
inductive Frame
  | mapping (anchor tag : Option Bytes) (pairs : List (Node × Node)) (key : Option Node)
  | sequence (anchor tag : Option Bytes) (items : List Node)

/-- Modelled from the spec: the states of the state machine of section 4.2,
with one more for the stream that has ended. -/
inductive Phase
  | EXPECT_STREAM_START
  | EXPECT_DOCUMENT_START
  | EXPECT_NODE
  | EXPECT_DOCUMENT_END
  | EXPECT_STREAM_END
  | FINISHED
  deriving DecidableEq

/-- Modelled from the spec: the state of the composer: the state of the state
machine, the stack of partially built containers, the anchor table of the
document, and the root node once it is built. -/
structure Composer where
  phase : Phase
  stack : List Frame
  anchors : List (Bytes × Node)
  root : Option Node

/-- Modelled from the spec: the composer before the first event. -/
def Composer.start : Composer :=
  ⟨.EXPECT_STREAM_START, [], [], none⟩

/-- Modelled from the spec: an anchor is registered in the anchor table when
its node is complete; a name already in the table is a DuplicateAnchor. -/
def register (anchor : Option Bytes) (n : Node) (table : List (Bytes × Node)) :
    Except ParseError (List (Bytes × Node)) :=
  match anchor with
  | none => .ok table
  | some a =>
      match table.lookup a with
      | some _ => .error .DuplicateAnchor
      | none => .ok ((a, n) :: table)

/-- Modelled from the spec: a complete node goes to the innermost open
container: appended to a sequence, kept as the waiting key of a mapping, or
paired with the waiting key; with no container open it is the root of the
document. -/
def attach (n : Node) (c : Composer) : Composer :=
  match c.stack with
  | [] => { c with root := some n, phase := .EXPECT_DOCUMENT_END }
  | .sequence a t items :: rest => { c with stack := .sequence a t (items ++ [n]) :: rest }
  | .mapping a t pairs none :: rest => { c with stack := .mapping a t pairs (some n) :: rest }
  | .mapping a t pairs (some k) :: rest =>
      { c with stack := .mapping a t (pairs ++ [(k, n)]) none :: rest }

/-- Modelled from the spec: completion of a node: its anchor, if any, is
registered, then the node is attached. -/
def complete (anchor : Option Bytes) (n : Node) (c : Composer) : Except ParseError Composer :=
  match register anchor n c.anchors with
  | .error e => .error e
  | .ok table => .ok (attach n { c with anchors := table })

/-- Modelled from the spec: one event consumed by the composer, sections 4.2
and 4.4.  A START event pushes a partially built container; an END event pops
the matching one and completes it; a scalar is complete at once; an alias
resolves by lookup in the anchor table and fails with UndefinedAlias when the
name is absent; any event the state does not expect is an UnexpectedToken. -/
def step (c : Composer) (ev : Event) : Except ParseError Composer :=
  match c.phase, ev with
  | .EXPECT_STREAM_START, .STREAM_START => .ok { c with phase := .EXPECT_DOCUMENT_START }
  | .EXPECT_DOCUMENT_START, .DOCUMENT_START _ _ _ => .ok { c with phase := .EXPECT_NODE }
  | .EXPECT_NODE, .SCALAR _ value anchor tag => complete anchor (.Scalar value tag) c
  | .EXPECT_NODE, .ALIAS target =>
      match c.anchors.lookup target with
      | none => .error (.UndefinedAlias target)
      | some n => complete none (.Alias n) c
  | .EXPECT_NODE, .MAPPING_START _ anchor tag =>
      .ok { c with stack := .mapping anchor tag [] none :: c.stack }
  | .EXPECT_NODE, .SEQUENCE_START _ anchor tag =>
      .ok { c with stack := .sequence anchor tag [] :: c.stack }
  | .EXPECT_NODE, .MAPPING_END =>
      match c.stack with
      | .mapping anchor tag pairs none :: rest =>
          complete anchor (.Mapping pairs tag) { c with stack := rest }
      | _ => .error .UnexpectedToken
  | .EXPECT_NODE, .SEQUENCE_END =>
      match c.stack with
      | .sequence anchor tag items :: rest =>
          complete anchor (.Sequence items tag) { c with stack := rest }
      | _ => .error .UnexpectedToken
  | .EXPECT_DOCUMENT_END, .DOCUMENT_END _ => .ok { c with phase := .EXPECT_STREAM_END }
  | .EXPECT_STREAM_END, .STREAM_END => .ok { c with phase := .FINISHED }
  | _, _ => .error .UnexpectedToken

/-- Modelled from the spec: the composer run over a sequence of events, the
first error ending the run. -/
def run (c : Composer) : List Event → Except ParseError Composer
  | [] => .ok c
  | ev :: rest =>
      match step c ev with
      | .error e => .error e
      | .ok c1 => run c1 rest

/-- Modelled from the spec: `compose(event sequence) -> Node | fails with
ParseError`, section 4.4: the full event sequence of one document is consumed
and the root node is the result; a sequence that ends early is an
UnexpectedToken. -/
def compose (events : List Event) : Except ParseError Node :=
  match run Composer.start events with
  | .error e => .error e
  | .ok c =>
      match c.phase, c.root with
      | .FINISHED, some n => .ok n
      | _, _ => .error .UnexpectedToken

mutual
/-- Modelled from the spec: a node tree without aliases. -/
def Node.aliasFree : Node → Bool
  | .Scalar _ _ => true
  | .Mapping pairs _ => pairsAliasFree pairs
  | .Sequence items _ => itemsAliasFree items
  | .Alias _ => false
/-- Modelled from the spec: a list of node trees without aliases. -/
def itemsAliasFree : List Node → Bool
  | [] => true
  | x :: xs => x.aliasFree && itemsAliasFree xs
/-- Modelled from the spec: a list of pairs of node trees without aliases. -/
def pairsAliasFree : List (Node × Node) → Bool
  | [] => true
  | (k, v) :: ps => k.aliasFree && v.aliasFree && pairsAliasFree ps
end

mutual
/-- The events of a node written out as a list, for given styles; `emitNode`
over `referenceCreate` produces this list (`emitNode_reference`). -/
def nodeEvents (cs : CollectionStyle) (ss : Bytes → ScalarStyle) : Node → List Event
  | .Scalar value tag => [.SCALAR (ss value) value none tag]
  | .Mapping pairs tag =>
      .MAPPING_START cs none tag :: pairsEvents cs ss pairs ++ [.MAPPING_END]
  | .Sequence items tag =>
      .SEQUENCE_START cs none tag :: itemsEvents cs ss items ++ [.SEQUENCE_END]
  | .Alias _ => []
/-- The events of the items of a sequence written out as a list. -/
def itemsEvents (cs : CollectionStyle) (ss : Bytes → ScalarStyle) : List Node → List Event
  | [] => []
  | x :: xs => nodeEvents cs ss x ++ itemsEvents cs ss xs
/-- The events of the pairs of a mapping written out as a list. -/
def pairsEvents (cs : CollectionStyle) (ss : Bytes → ScalarStyle) :
    List (Node × Node) → List Event
  | [] => []
  | (k, v) :: ps => nodeEvents cs ss k ++ nodeEvents cs ss v ++ pairsEvents cs ss ps
end

/-- A sample tree: a tagged mapping with one pair, whose key is a scalar and
whose value is a sequence of a tagged scalar holding a zero byte and an empty
mapping. -/
def sampleTree : Node :=
  .Mapping
    [(.Scalar [107] none,
      .Sequence [.Scalar [49, 0, 50] (some [33]), .Mapping [] none] none)]
    (some [33, 109])

/-- A sample choice: implicit document markers, plain scalars, block
collections. -/
def sampleChoice : EmitChoice :=
  ⟨1, 1, fun _ => 0, 0⟩

/-! ## The trampoline -/

/-- The parser running a list of invocations against an observed handler, from
a log `log`, ends with the log extended by exactly these invocations, and with
the return codes and world of the handler called directly. -/
theorem invokeAll_observed {W : Type} (H : Handler W) (calls : List Invocation) :
    ∀ (w : W) (log : List Invocation),
      invokeAll (compose_process_event (observedHandler H)) calls (w, log)
        = ((invokeAll H calls w).1, ((invokeAll H calls w).2, log ++ calls)) := by
  induction calls with
  | nil => intro w log; simp [invokeAll]
  | cons i rest ih =>
      intro w log
      simp only [invokeAll, compose_process_event, observedHandler]
      have h := ih (H i.fyp i.fye i.path i.userdata w).2 (log ++ [i])
      simp only [compose_process_event] at h
      rw [h]
      simp

/-- Claim C1: for every handler `FY_ProcessEvent`, parser, event, path and
userdata, and in every world, `compose_process_event` returns exactly the
return code of the handler and leaves the world the handler left; the handler
is called exactly once, with the four arguments in the same order and
unchanged. -/
theorem compose_process_event_forwards {W : Type} (FY_ProcessEvent : Handler W)
    (fyp fye path userdata : Ptr) (w : W) :
    compose_process_event FY_ProcessEvent fyp fye path userdata w
        = FY_ProcessEvent fyp fye path userdata w
      ∧ (compose_process_event FY_ProcessEvent fyp fye path userdata w).1
        = (FY_ProcessEvent fyp fye path userdata w).1
      ∧ (compose_process_event (observedHandler FY_ProcessEvent) fyp fye path userdata
          (w, [])).2.2 = [⟨fyp, fye, path, userdata⟩] := by
  refine ⟨rfl, rfl, ?_⟩
  simp [compose_process_event, observedHandler]

/-- Claim C2: for every finite sequence of invocations of
`compose_process_event`, the sequence of invocations the handler observes is
exactly that sequence (same length, same order, same event and path at every
position), and the return codes and the final world are those of the handler
invoked directly. -/
theorem compose_process_event_preserves_call_order {W : Type} (FY_ProcessEvent : Handler W)
    (calls : List Invocation) (w : W) :
    (invokeAll (compose_process_event (observedHandler FY_ProcessEvent)) calls (w, [])).2.2
        = calls
      ∧ (invokeAll (compose_process_event (observedHandler FY_ProcessEvent)) calls
          (w, [])).1 = (invokeAll FY_ProcessEvent calls w).1
      ∧ (invokeAll (compose_process_event (observedHandler FY_ProcessEvent)) calls
          (w, [])).2.1 = (invokeAll FY_ProcessEvent calls w).2
      ∧ ((invokeAll (compose_process_event (observedHandler FY_ProcessEvent)) calls
          (w, [])).2.2).length = calls.length
      ∧ ∀ (k : Nat) (i : Invocation),
          ((invokeAll (compose_process_event (observedHandler FY_ProcessEvent)) calls
            (w, [])).2.2)[k]? = some i → calls[k]? = some i := by
  rw [invokeAll_observed FY_ProcessEvent calls w []]
  simp

/-! ## The event constructors -/

/-- Claim C3: `fy_emit_event_create_scalar(emit, ss, value, size, anchor, tag)`
returns exactly what `fy_emit_event_create(emit, FYET_SCALAR, ss, value, size,
anchor, tag)` returns, for every library function, world and argument values
(null pointers and any size included), and issues exactly that one call. -/
theorem fy_emit_event_create_scalar_forwards {W E : Type} (create : Creator W E)
    (emit : Ptr) (ss : Int) (value : CString) (size : Nat) (anchor tag : CString) (w : W) :
    fy_emit_event_create_scalar create emit ss value size anchor tag w
        = create emit FYET_SCALAR
            [.int ss, .str value, .size size, .str anchor, .str tag] w
      ∧ (fy_emit_event_create_scalar (observedCreate create) emit ss value size anchor tag
          (w, [])).2.2
        = [⟨emit, FYET_SCALAR, [.int ss, .str value, .size size, .str anchor, .str tag]⟩] := by
  refine ⟨rfl, ?_⟩
  simp [fy_emit_event_create_scalar, observedCreate]

/-- Claim C4: `fy_emit_event_create_document_start(emit, implicit, vers, tags)`
returns exactly what `fy_emit_event_create(emit, FYET_DOCUMENT_START, implicit,
vers, tags)` returns, for every library function, world and argument values
(a null version or tag list included), and issues exactly that one call. -/
theorem fy_emit_event_create_document_start_forwards {W E : Type} (create : Creator W E)
    (emit : Ptr) (implicit : Int) (vers : VersionPtr) (tags : TagsPtr) (w : W) :
    fy_emit_event_create_document_start create emit implicit vers tags w
        = create emit FYET_DOCUMENT_START [.int implicit, .version vers, .tags tags] w
      ∧ (fy_emit_event_create_document_start (observedCreate create) emit implicit vers tags
          (w, [])).2.2
        = [⟨emit, FYET_DOCUMENT_START, [.int implicit, .version vers, .tags tags]⟩] := by
  refine ⟨rfl, ?_⟩
  simp [fy_emit_event_create_document_start, observedCreate]

/-- Claim C5: for the kinds MAPPING_START and SEQUENCE_START,
`fy_emit_event_create_collection_start(emit, type, ns, anchor, tag)` returns
exactly what `fy_emit_event_create(emit, type, ns, anchor, tag)` returns, with
the kind of the caller unchanged and the payload in the order (style, anchor,
tag), for every library function, world and argument values (null anchor or
tag included), and issues exactly that one call. -/
theorem fy_emit_event_create_collection_start_forwards {W E : Type} (create : Creator W E)
    (emit : Ptr) (ns : Int) (anchor tag : CString) (w : W) :
    fy_emit_event_create_collection_start create emit FYET_MAPPING_START ns anchor tag w
        = create emit FYET_MAPPING_START [.int ns, .str anchor, .str tag] w
      ∧ fy_emit_event_create_collection_start create emit FYET_SEQUENCE_START ns anchor tag w
        = create emit FYET_SEQUENCE_START [.int ns, .str anchor, .str tag] w
      ∧ (fy_emit_event_create_collection_start (observedCreate create) emit
          FYET_MAPPING_START ns anchor tag (w, [])).2.2
        = [⟨emit, FYET_MAPPING_START, [.int ns, .str anchor, .str tag]⟩]
      ∧ (fy_emit_event_create_collection_start (observedCreate create) emit
          FYET_SEQUENCE_START ns anchor tag (w, [])).2.2
        = [⟨emit, FYET_SEQUENCE_START, [.int ns, .str anchor, .str tag]⟩] := by
  refine ⟨rfl, rfl, ?_, ?_⟩ <;>
    simp [fy_emit_event_create_collection_start, observedCreate]

/-- Claim C6: `fy_emit_event_create_alias(emit, value)` returns exactly what
`fy_emit_event_create(emit, FYET_ALIAS, value)` returns, for every library
function, world and argument values, and issues exactly that one call. -/
theorem fy_emit_event_create_alias_forwards {W E : Type} (create : Creator W E)
    (emit : Ptr) (value : CString) (w : W) :
    fy_emit_event_create_alias create emit value w
        = create emit FYET_ALIAS [.str value] w
      ∧ (fy_emit_event_create_alias (observedCreate create) emit value (w, [])).2.2
        = [⟨emit, FYET_ALIAS, [.str value]⟩] := by
  refine ⟨rfl, ?_⟩
  simp [fy_emit_event_create_alias, observedCreate]

/-- Claim C7: `fy_emit_event_create_document_end(emit, implicit)` returns
exactly what `fy_emit_event_create(emit, FYET_DOCUMENT_END, implicit)` returns,
for every library function, world and integer `implicit` (passed as it is,
whatever its value), and issues exactly that one call. -/
theorem fy_emit_event_create_document_end_forwards {W E : Type} (create : Creator W E)
    (emit : Ptr) (implicit : Int) (w : W) :
    fy_emit_event_create_document_end create emit implicit w
        = create emit FYET_DOCUMENT_END [.int implicit] w
      ∧ (fy_emit_event_create_document_end (observedCreate create) emit implicit
          (w, [])).2.2
        = [⟨emit, FYET_DOCUMENT_END, [.int implicit]⟩] := by
  refine ⟨rfl, ?_⟩
  simp [fy_emit_event_create_document_end, observedCreate]

/-- Claim C8, as stated, fails at the kind SCALAR: over the library as the
specification describes it, `fy_emit_event_create_simple(emit, FYET_SCALAR)`
hands the library no payload, the library builds nothing from it, and the
helper returns null, not an event of kind SCALAR. -/
theorem simple_scalar_returns_no_event :
    (fy_emit_event_create_simple referenceCreate 1 FYET_SCALAR ()).1 = none
      ∧ ¬ ∃ e : Event,
          (fy_emit_event_create_simple referenceCreate 1 FYET_SCALAR ()).1 = some e
            ∧ e.kind = FYET_SCALAR := by
  refine ⟨by decide, ?_⟩
  rintro ⟨e, h, _⟩
  simp [fy_emit_event_create_simple, referenceCreate, decodeEvent] at h

/-- Claim C8, amended: for every emitter and every event kind,
`fy_emit_event_create_simple(emit, type)` returns exactly what
`fy_emit_event_create(emit, type)` returns, called with the kind unchanged and
with no payload argument, for every library function and world, and issues
exactly that one call.  Over the library as the specification describes it,
the result is an event of that kind exactly for STREAM_START, STREAM_END,
MAPPING_END and SEQUENCE_END, where it is the event of the kind itself, with no
field filled by default; for DOCUMENT_START, DOCUMENT_END, MAPPING_START,
SEQUENCE_START, SCALAR and ALIAS the helper returns null. -/
theorem fy_emit_event_create_simple_forwards {W E : Type} (create : Creator W E)
    (emit : Ptr) (type : fy_event_type) (w : W) :
    (fy_emit_event_create_simple create emit type w = create emit type [] w
      ∧ (fy_emit_event_create_simple (observedCreate create) emit type (w, [])).2.2
        = [⟨emit, type, []⟩])
    ∧ ((∃ e : Event, (fy_emit_event_create_simple referenceCreate emit type w).1 = some e
          ∧ e.kind = type) ↔
        type = FYET_STREAM_START ∨ type = FYET_STREAM_END
          ∨ type = FYET_MAPPING_END ∨ type = FYET_SEQUENCE_END)
    ∧ ((fy_emit_event_create_simple referenceCreate emit type w).1 = none ↔
        type = FYET_DOCUMENT_START ∨ type = FYET_DOCUMENT_END
          ∨ type = FYET_MAPPING_START ∨ type = FYET_SEQUENCE_START
          ∨ type = FYET_SCALAR ∨ type = FYET_ALIAS)
    ∧ fy_emit_event_create_simple referenceCreate emit FYET_STREAM_START w
        = (some .STREAM_START, w)
    ∧ fy_emit_event_create_simple referenceCreate emit FYET_STREAM_END w
        = (some .STREAM_END, w)
    ∧ fy_emit_event_create_simple referenceCreate emit FYET_MAPPING_END w
        = (some .MAPPING_END, w)
    ∧ fy_emit_event_create_simple referenceCreate emit FYET_SEQUENCE_END w
        = (some .SEQUENCE_END, w) := by
  refine ⟨⟨rfl, ?_⟩, ?_, ?_, rfl, rfl, rfl, rfl⟩
  · simp [fy_emit_event_create_simple, observedCreate]
  · cases type <;>
      simp [fy_emit_event_create_simple, referenceCreate, decodeEvent, Event.kind]
  · cases type <;> simp [fy_emit_event_create_simple, referenceCreate, decodeEvent]

/-! ## Helpers that take the kind as a parameter -/

/-- The reference library builds an event only from a variadic part that has
the signature of the kind: `payloadSignature` is what `decodeEvent` reads. -/
theorem decodeEvent_signature (type : fy_event_type) (args : List VArg) (e : Event)
    (h : decodeEvent type args = some e) :
    args.map VArg.sort = payloadSignature type := by
  unfold decodeEvent at h
  split at h <;> simp_all [payloadSignature, VArg.sort]

/-- Claim C10, as stated, fails at the kind DOCUMENT_START: the call issued by
`fy_emit_event_create_collection_start` for DOCUMENT_START carries three
payload arguments, the library reads three for DOCUMENT_START, and
DOCUMENT_START is neither MAPPING_START nor SEQUENCE_START. -/
theorem collection_start_count_matches_for_document_start :
    (fy_emit_event_create_collection_start
        (observedCreate (fun _ _ _ (w : Unit) => ((none : Option Unit), w)))
        1 FYET_DOCUMENT_START 0 none none ((), [])).2.2
      = [⟨1, FYET_DOCUMENT_START, [.int 0, .str none, .str none]⟩]
    ∧ CreateCall.countMatches ⟨1, FYET_DOCUMENT_START, [.int 0, .str none, .str none]⟩ = true
    ∧ ¬ (CreateCall.countMatches ⟨1, FYET_DOCUMENT_START, [.int 0, .str none, .str none]⟩
          = true →
        FYET_DOCUMENT_START = FYET_MAPPING_START
          ∨ FYET_DOCUMENT_START = FYET_SEQUENCE_START) := by
  refine ⟨by simp [fy_emit_event_create_collection_start, observedCreate], by decide, ?_⟩
  decide

/-- Claim C10, amended: the two helpers that take the kind as a parameter do
not look at it.  For every kind `type`, every library function and world,
`fy_emit_event_create_simple` issues exactly the library call with `type` and
no payload argument, `fy_emit_event_create_collection_start` issues exactly the
library call with `type` and the payload (ns, anchor, tag), and each returns a
null event exactly when that library call does.  The number of payload
arguments equals the number the library reads for `type` exactly for
STREAM_START, STREAM_END, MAPPING_END and SEQUENCE_END in the first helper, and
exactly for MAPPING_START, SEQUENCE_START and DOCUMENT_START in the second;
the C types of the three arguments are those the library reads exactly for
MAPPING_START and SEQUENCE_START. -/
theorem kind_parameter_not_validated {W E : Type} (create : Creator W E)
    (emit : Ptr) (type : fy_event_type) (ns : Int) (anchor tag : CString) (w : W) :
    (fy_emit_event_create_simple create emit type w = create emit type [] w
      ∧ (fy_emit_event_create_simple (observedCreate create) emit type (w, [])).2.2
          = [⟨emit, type, []⟩])
    ∧ (fy_emit_event_create_collection_start create emit type ns anchor tag w
          = create emit type [.int ns, .str anchor, .str tag] w
      ∧ (fy_emit_event_create_collection_start (observedCreate create) emit type ns anchor
          tag (w, [])).2.2 = [⟨emit, type, [.int ns, .str anchor, .str tag]⟩])
    ∧ (CreateCall.countMatches ⟨emit, type, []⟩ = true ↔
        type = FYET_STREAM_START ∨ type = FYET_STREAM_END
          ∨ type = FYET_MAPPING_END ∨ type = FYET_SEQUENCE_END)
    ∧ (CreateCall.countMatches ⟨emit, type, [.int ns, .str anchor, .str tag]⟩ = true ↔
        type = FYET_MAPPING_START ∨ type = FYET_SEQUENCE_START
          ∨ type = FYET_DOCUMENT_START)
    ∧ (CreateCall.signatureMatches ⟨emit, type, [.int ns, .str anchor, .str tag]⟩ = true ↔
        type = FYET_MAPPING_START ∨ type = FYET_SEQUENCE_START)
    ∧ ((fy_emit_event_create_simple create emit type w).1 = none ↔
        (create emit type [] w).1 = none)
    ∧ ((fy_emit_event_create_collection_start create emit type ns anchor tag w).1 = none ↔
        (create emit type [.int ns, .str anchor, .str tag] w).1 = none) := by
  refine ⟨⟨rfl, ?_⟩, ⟨rfl, ?_⟩, ?_, ?_, ?_, Iff.rfl, Iff.rfl⟩
  · simp [fy_emit_event_create_simple, observedCreate]
  · simp [fy_emit_event_create_collection_start, observedCreate]
  · cases type <;> simp [CreateCall.countMatches, payloadArity, payloadSignature]
  · cases type <;> simp [CreateCall.countMatches, payloadArity, payloadSignature]
  · cases type <;> simp [CreateCall.signatureMatches, payloadSignature, VArg.sort]

/-! ## Round trip of the event model -/

/-- The composer run over a first event that is accepted. -/
theorem run_cons_ok (c c1 : Composer) (ev : Event) (rest : List Event)
    (h : step c ev = .ok c1) : run c (ev :: rest) = run c1 rest := by
  simp [run, h]

/-- The composer run over two sequences of events in a row. -/
theorem run_append_ok (c c1 : Composer) (es rest : List Event)
    (h : run c es = .ok c1) : run c (es ++ rest) = run c1 rest := by
  induction es generalizing c with
  | nil => simp [run] at h; simp [h]
  | cons e es ih =>
      simp only [run, List.cons_append] at h ⊢
      cases hstep : step c e with
      | error err => simp [hstep] at h
      | ok c2 =>
          simp only [hstep] at h ⊢
          exact ih c2 h

/-- The scalar helper over the reference library builds the SCALAR event with
the whole value, the given tag and no anchor. -/
theorem create_scalar_reference {W : Type} (emit : Ptr) (w : W) (value : Bytes)
    (tag : Option Bytes) (s : Int) (st : ScalarStyle) (h : ScalarStyle.ofInt s = some st) :
    fy_emit_event_create_scalar referenceCreate emit s (some value) value.length none tag w
      = (some (.SCALAR st value none tag), w) := by
  simp [fy_emit_event_create_scalar, referenceCreate, decodeEvent, h]

/-- The collection helper over the reference library, kind MAPPING_START. -/
theorem create_mapping_start_reference {W : Type} (emit : Ptr) (cs : CollectionStyle)
    (w : W) (tag : Option Bytes) (s : Int) (h : CollectionStyle.ofInt s = some cs) :
    fy_emit_event_create_collection_start referenceCreate emit FYET_MAPPING_START s none tag w
      = (some (.MAPPING_START cs none tag), w) := by
  simp [fy_emit_event_create_collection_start, referenceCreate, decodeEvent, h]

/-- The collection helper over the reference library, kind SEQUENCE_START. -/
theorem create_sequence_start_reference {W : Type} (emit : Ptr) (cs : CollectionStyle)
    (w : W) (tag : Option Bytes) (s : Int) (h : CollectionStyle.ofInt s = some cs) :
    fy_emit_event_create_collection_start referenceCreate emit FYET_SEQUENCE_START s none tag w
      = (some (.SEQUENCE_START cs none tag), w) := by
  simp [fy_emit_event_create_collection_start, referenceCreate, decodeEvent, h]

mutual
/-- Emitting a tree without aliases over the reference library yields the
events of `nodeEvents` and leaves the world as it is. -/
theorem emitNode_reference {W : Type} (emit : Ptr) (ch : EmitChoice) (cs : CollectionStyle)
    (ss : Bytes → ScalarStyle) (hc : CollectionStyle.ofInt ch.collectionStyle = some cs)
    (hs : ∀ v, ScalarStyle.ofInt (ch.scalarStyle v) = some (ss v)) :
    ∀ (n : Node), n.aliasFree = true → ∀ w : W,
      emitNode referenceCreate emit ch n w = (some (nodeEvents cs ss n), w)
  | .Scalar value tag, _, w => by
      simp [emitNode, nodeEvents, andThen,
        create_scalar_reference emit w value tag _ _ (hs value)]
  | .Mapping pairs tag, h, w => by
      have hp := emitPairs_reference emit ch cs ss hc hs pairs
        (by simpa [Node.aliasFree] using h) w
      simp [emitNode, nodeEvents, andThen,
        create_mapping_start_reference emit cs w tag _ hc, hp]
      simp [fy_emit_event_create_simple, referenceCreate, decodeEvent]
  | .Sequence items tag, h, w => by
      have hp := emitItems_reference emit ch cs ss hc hs items
        (by simpa [Node.aliasFree] using h) w
      simp [emitNode, nodeEvents, andThen,
        create_sequence_start_reference emit cs w tag _ hc, hp]
      simp [fy_emit_event_create_simple, referenceCreate, decodeEvent]
  | .Alias _, h, _ => by simp [Node.aliasFree] at h
/-- Emitting the items of a sequence over the reference library. -/
theorem emitItems_reference {W : Type} (emit : Ptr) (ch : EmitChoice) (cs : CollectionStyle)
    (ss : Bytes → ScalarStyle) (hc : CollectionStyle.ofInt ch.collectionStyle = some cs)
    (hs : ∀ v, ScalarStyle.ofInt (ch.scalarStyle v) = some (ss v)) :
    ∀ (xs : List Node), itemsAliasFree xs = true → ∀ w : W,
      emitItems referenceCreate emit ch xs w = (some (itemsEvents cs ss xs), w)
  | [], _, w => by simp [emitItems, itemsEvents]
  | x :: xs, h, w => by
      simp [itemsAliasFree] at h
      simp [emitItems, itemsEvents, andThen, emitNode_reference emit ch cs ss hc hs x h.1 w,
        emitItems_reference emit ch cs ss hc hs xs h.2 w]
/-- Emitting the pairs of a mapping over the reference library. -/
theorem emitPairs_reference {W : Type} (emit : Ptr) (ch : EmitChoice) (cs : CollectionStyle)
    (ss : Bytes → ScalarStyle) (hc : CollectionStyle.ofInt ch.collectionStyle = some cs)
    (hs : ∀ v, ScalarStyle.ofInt (ch.scalarStyle v) = some (ss v)) :
    ∀ (ps : List (Node × Node)), pairsAliasFree ps = true → ∀ w : W,
      emitPairs referenceCreate emit ch ps w = (some (pairsEvents cs ss ps), w)
  | [], _, w => by simp [emitPairs, pairsEvents]
  | (k, v) :: ps, h, w => by
      simp [pairsAliasFree] at h
      simp [emitPairs, pairsEvents, andThen,
        emitNode_reference emit ch cs ss hc hs k h.1.1 w,
        emitNode_reference emit ch cs ss hc hs v h.1.2 w,
        emitPairs_reference emit ch cs ss hc hs ps h.2 w]
end

mutual
/-- The composer, expecting a node, run over the events of a tree without
aliases, attaches that tree and changes nothing else. -/
theorem run_nodeEvents (cs : CollectionStyle) (ss : Bytes → ScalarStyle) :
    ∀ (n : Node), n.aliasFree = true →
      ∀ (stk : List Frame) (anch : List (Bytes × Node)) (root : Option Node),
        run ⟨.EXPECT_NODE, stk, anch, root⟩ (nodeEvents cs ss n)
          = .ok (attach n ⟨.EXPECT_NODE, stk, anch, root⟩)
  | .Scalar value tag, _, stk, anch, root => by
      simp [nodeEvents, run, step, complete, register]
  | .Mapping pairs tag, h, stk, anch, root => by
      have hp := run_pairsEvents cs ss pairs (by simpa [Node.aliasFree] using h)
        none tag [] stk anch root
      simp only [nodeEvents, List.cons_append]
      rw [run_cons_ok _ ⟨.EXPECT_NODE, .mapping none tag [] none :: stk, anch, root⟩ _ _
        (by simp [step])]
      rw [run_append_ok _ _ _ _ hp]
      simp [run, step, complete, register]
  | .Sequence items tag, h, stk, anch, root => by
      have hp := run_itemsEvents cs ss items (by simpa [Node.aliasFree] using h)
        none tag [] stk anch root
      simp only [nodeEvents, List.cons_append]
      rw [run_cons_ok _ ⟨.EXPECT_NODE, .sequence none tag [] :: stk, anch, root⟩ _ _
        (by simp [step])]
      rw [run_append_ok _ _ _ _ hp]
      simp [run, step, complete, register]
  | .Alias _, h, _, _, _ => by simp [Node.aliasFree] at h
/-- The composer, inside an open sequence, run over the events of a list of
trees without aliases, appends these trees to the sequence. -/
theorem run_itemsEvents (cs : CollectionStyle) (ss : Bytes → ScalarStyle) :
    ∀ (xs : List Node), itemsAliasFree xs = true →
      ∀ (a t : Option Bytes) (done : List Node) (stk : List Frame)
        (anch : List (Bytes × Node)) (root : Option Node),
        run ⟨.EXPECT_NODE, .sequence a t done :: stk, anch, root⟩ (itemsEvents cs ss xs)
          = .ok ⟨.EXPECT_NODE, .sequence a t (done ++ xs) :: stk, anch, root⟩
  | [], _, a, t, done, stk, anch, root => by simp [itemsEvents, run]
  | x :: xs, h, a, t, done, stk, anch, root => by
      simp [itemsAliasFree] at h
      have hx := run_nodeEvents cs ss x h.1 (.sequence a t done :: stk) anch root
      have hxs := run_itemsEvents cs ss xs h.2 a t (done ++ [x]) stk anch root
      simp only [itemsEvents]
      rw [run_append_ok _ _ _ _ hx]
      simp only [attach]
      rw [hxs]
      simp
/-- The composer, inside an open mapping with no key waiting, run over the
events of a list of pairs of trees without aliases, appends these pairs to the
mapping. -/
theorem run_pairsEvents (cs : CollectionStyle) (ss : Bytes → ScalarStyle) :
    ∀ (ps : List (Node × Node)), pairsAliasFree ps = true →
      ∀ (a t : Option Bytes) (done : List (Node × Node)) (stk : List Frame)
        (anch : List (Bytes × Node)) (root : Option Node),
        run ⟨.EXPECT_NODE, .mapping a t done none :: stk, anch, root⟩ (pairsEvents cs ss ps)
          = .ok ⟨.EXPECT_NODE, .mapping a t (done ++ ps) none :: stk, anch, root⟩
  | [], _, a, t, done, stk, anch, root => by simp [pairsEvents, run]
  | (k, v) :: ps, h, a, t, done, stk, anch, root => by
      simp [pairsAliasFree] at h
      have hk := run_nodeEvents cs ss k h.1.1 (.mapping a t done none :: stk) anch root
      have hv := run_nodeEvents cs ss v h.1.2 (.mapping a t done (some k) :: stk) anch root
      have hps := run_pairsEvents cs ss ps h.2 a t (done ++ [(k, v)]) stk anch root
      simp only [pairsEvents, List.append_assoc]
      rw [run_append_ok _ _ _ _ hk]
      simp only [attach]
      rw [run_append_ok _ _ _ _ hv]
      simp only [attach]
      rw [hps]
      simp
end

/-- Composing the events of one document whose tree has no alias yields the
tree. -/
theorem compose_document (cs : CollectionStyle) (ss : Bytes → ScalarStyle) (n : Node)
    (h : n.aliasFree = true) (b1 b2 : Bool) (v : Option (Nat × Nat))
    (tg : Option (List (Bytes × Bytes))) :
    compose (.STREAM_START :: .DOCUMENT_START b1 v tg :: nodeEvents cs ss n
      ++ [.DOCUMENT_END b2, .STREAM_END]) = .ok n := by
  have hn := run_nodeEvents cs ss n h [] [] none
  simp only [compose, List.cons_append]
  rw [run_cons_ok _ ⟨.EXPECT_DOCUMENT_START, [], [], none⟩ _ _ (by simp [step, Composer.start])]
  rw [run_cons_ok _ ⟨.EXPECT_NODE, [], [], none⟩ _ _ (by simp [step])]
  rw [run_append_ok _ _ _ _ hn]
  simp [attach, run, step]

/-- Claim C9: round trip of the event model.  For every node tree without
aliases, every emitter, every world, and every choice of implicit flags and of
valid styles, emitting the tree with the helpers of `callback.c` over the
reference library produces a sequence of events (no helper returns null), and
composing that sequence yields the tree again. -/
theorem compose_emit_roundtrip {W : Type} (emit : Ptr) (ch : EmitChoice) (w : W) (n : Node)
    (hc : (CollectionStyle.ofInt ch.collectionStyle).isSome = true)
    (hs : ∀ v, (ScalarStyle.ofInt (ch.scalarStyle v)).isSome = true)
    (hn : n.aliasFree = true) :
    ∃ events, emitDocument referenceCreate emit ch n w = (some events, w)
      ∧ compose events = .ok n := by
  obtain ⟨cs, hcs⟩ := Option.isSome_iff_exists.mp hc
  have hss : ∀ v, ScalarStyle.ofInt (ch.scalarStyle v)
      = some ((ScalarStyle.ofInt (ch.scalarStyle v)).getD .PLAIN) := by
    intro v
    obtain ⟨s, hv⟩ := Option.isSome_iff_exists.mp (hs v)
    simp [hv]
  refine ⟨_, ?_, compose_document cs
    (fun v => (ScalarStyle.ofInt (ch.scalarStyle v)).getD .PLAIN) n hn
    (decide (ch.implicitStart ≠ 0)) (decide (ch.implicitEnd ≠ 0)) none none⟩
  simp [emitDocument, andThen, emitNode_reference emit ch cs _ hcs hss n hn,
    fy_emit_event_create_simple, fy_emit_event_create_document_start,
    fy_emit_event_create_document_end, referenceCreate, decodeEvent]

/-- Witness for claim C9: the sample tree, emitted with the sample choice, is
composed back. -/
theorem compose_emit_roundtrip_witness :
    (CollectionStyle.ofInt sampleChoice.collectionStyle).isSome = true
      ∧ (∀ v, (ScalarStyle.ofInt (sampleChoice.scalarStyle v)).isSome = true)
      ∧ sampleTree.aliasFree = true
      ∧ ∃ events, emitDocument referenceCreate 7 sampleChoice sampleTree () = (some events, ())
          ∧ compose events = .ok sampleTree :=
  ⟨by decide, fun _ => rfl, by decide,
    compose_emit_roundtrip 7 sampleChoice () sampleTree (by decide) (fun _ => rfl) (by decide)⟩

end GoFyaml
